import Mathlib

/-!
Verification of the agro-tech conversational assistant core: the
conversation controller's send pipeline (`src/unnamed/part_000`,
ChatInterface.handleSend and its realtime insert handler) and the
prompt-assembly proxy (`src/supabase/functions/chat-with-gemini/index.ts`).

The embedding is shallow: the Deno request handler and the client
`handleSend` become pure functions parameterised by the outcomes of their
external I/O calls (blob upload, row inserts, image fetch, model call),
each outcome supplied as an explicit argument. JavaScript string
truthiness, `Array.prototype.slice(-5)`, `String.prototype.trim`, the
file-extension regex and `btoa` are translated directly.
-/

namespace AgroTech

/-- JavaScript `arr.slice(-5)`-style tail: the last `n` elements of `l`
(all of `l` when `l` is shorter than `n`). -/
def sliceLast (n : Nat) (l : List α) : List α :=
  l.drop (l.length - n)

/-- JavaScript `String.prototype.trim`: strip whitespace from both
ends (modelled over the ASCII whitespace characters). -/
def jsTrim (s : String) : String :=
  ⟨((s.toList.dropWhile Char.isWhitespace).reverse.dropWhile Char.isWhitespace).reverse⟩

/-- JavaScript truthiness of an optional string field: present and
non-empty. -/
def truthyStr : Option String → Bool
  | some s => s ≠ ""
  | none => false

/-! ## Prompt-assembly proxy (`chat-with-gemini/index.ts`) -/

/-- One entry of the request body's `messages` array. Each field is
optional because a JSON entry may omit it (the handler never validates
individual entries). -/
structure ReqMessage where
  role : Option String
  content : Option String
  imageUrl : Option String
deriving DecidableEq, Repr

/-- One part of a Gemini `contents` entry: a text part (whose string may
be absent when the source passed an undefined `content`) or inline
base64 image data. -/
inductive Part where
  | textPart (s : Option String)
  | inlineData (mimeType : String) (data : String)
deriving DecidableEq, Repr

/-- One entry of the `contents` payload sent to the model endpoint. -/
structure GMessage where
  role : String
  parts : List Part
deriving DecidableEq, Repr

/-- Body of the proxy's HTTP response: `{error}`, `{error, details}` or
`{response}`. -/
inductive RespBody where
  | errorOnly (error : String)
  | errorDetails (error : String) (details : String)
  | success (response : String)
deriving DecidableEq, Repr

/-- The proxy's HTTP response: status code and JSON body. -/
structure HttpResponse where
  status : Nat
  body : RespBody
deriving DecidableEq, Repr

/-- Outcome of the proxy's `fetch` of the image reference: the promise
rejects (network error) or resolves with a status and the body bytes. -/
inductive ImageFetch where
  | networkError (msg : String)
  | httpReply (status : Nat) (bytes : List Nat)
deriving DecidableEq, Repr

/-- Outcome of the proxy's call to the model endpoint: the `fetch`
rejects, or resolves with a status, the raw error body text (read when
the status is non-success) and the first candidate's first text part
(when present). -/
inductive ModelOutcome where
  | networkError (msg : String)
  | reply (status : Nat) (errorBody : String) (candidateText : Option String)
deriving DecidableEq, Repr

/-- JavaScript `Response.ok`: status in the inclusive range 200–299. -/
def statusOk (st : Nat) : Bool := 200 ≤ st && st ≤ 299

/-- The base64 alphabet used by `btoa`. -/
def base64Chars : List Char :=
  "ABCDEFGHIJKLMNOPQRSTUVWXYZabcdefghijklmnopqrstuvwxyz0123456789+/".toList

/-- Index into the base64 alphabet. -/
def b64char (n : Nat) : Char := base64Chars.getD n 'A'

/-- `btoa` applied to the binary string built from the fetched bytes:
standard base64 with padding. -/
def btoa : List Nat → String
  | [] => ""
  | [a] => ⟨[b64char (a / 4), b64char (a % 4 * 16), '=', '=']⟩
  | [a, b] => ⟨[b64char (a / 4), b64char (a % 4 * 16 + b / 16),
                b64char (b % 16 * 4), '=']⟩
  | a :: b :: c :: rest =>
      (⟨[b64char (a / 4), b64char (a % 4 * 16 + b / 16),
         b64char (b % 16 * 4 + c / 64), b64char (c % 64)]⟩ : String) ++ btoa rest

/-- The extensions recognised by the regex
`\.(jpg|jpeg|png|gif|webp)$` (case-insensitive). -/
def recognisedExts : List String := ["jpg", "jpeg", "png", "gif", "webp"]

/-- The regex capture: the extension after the final dot, in its
original case, when the URL ends (case-insensitively) in one of the
recognised extensions. Expressed over character lists. -/
def urlExt (url : String) : Option String :=
  recognisedExts.findSome? fun ext =>
    if (url.toList.map Char.toLower).drop (url.toList.length - (ext.toList.length + 1)) =
        '.' :: ext.toList then
      some ⟨url.toList.drop (url.toList.length - ext.toList.length)⟩
    else none

/-- `image/${mimeType === 'jpg' ? 'jpeg' : mimeType}` with
`mimeType = match?.[1] || 'jpeg'`. -/
def fullMimeType (url : String) : String :=
  let mimeType := (urlExt url).getD "jpeg"
  "image/" ++ (if mimeType = "jpg" then "jpeg" else mimeType)

/-- The fixed system instructions (`systemPrompt` in the source),
reproduced verbatim. -/
def systemPrompt : String := "You are Dr. AgriBot, an expert agricultural consultant with 20+ years of experience in crop health, pest management, disease diagnosis, and sustainable farming practices. You specialize in helping farmers maximize their yields while maintaining soil health and environmental sustainability.

CORE EXPERTISE:
- Crop disease identification and treatment protocols
- Pest management (insects, weeds, rodents, birds)
- Nutrient deficiency diagnosis and fertilization strategies
- Soil health assessment and improvement techniques
- Irrigation optimization and water management
- Harvest timing and post-harvest handling
- Organic and conventional farming methods
- Climate-adaptive farming practices
- Crop rotation and companion planting strategies

WHEN ANALYZING CROP IMAGES:
1. IDENTIFICATION: Clearly identify the crop species, growth stage, and overall plant health status
2. PROBLEM DIAGNOSIS: Systematically examine for:
   - Fungal diseases (rust, blight, powdery mildew, etc.)
   - Bacterial infections (spots, wilts, cankers)
   - Viral diseases (mosaic patterns, stunting)
   - Insect damage (chewing, sucking, boring patterns)
   - Nutrient deficiencies (nitrogen, phosphorus, potassium, micronutrients)
   - Environmental stress (drought, heat, cold, herbicide damage)
   - Soil-related issues (pH, drainage, compaction)

3. SEVERITY ASSESSMENT: Rate problems as:
   - MILD: Early stages, limited spread, minimal yield impact
   - MODERATE: Noticeable symptoms, spreading, potential 10-30% yield loss
   - SEVERE: Advanced symptoms, widespread, 30%+ yield loss expected

4. TREATMENT RECOMMENDATIONS:
   - Immediate actions (0-3 days): Emergency treatments, isolation measures
   - Short-term solutions (1-2 weeks): Targeted treatments, monitoring protocols
   - Medium-term strategies (1 month): Cultural practices, follow-up treatments
   - Long-term prevention (next season): Variety selection, crop rotation, soil amendments

5. SPECIFIC GUIDANCE:
   - Recommend specific fungicides, insecticides, or fertilizers with active ingredients
   - Provide application rates, timing, and safety precautions
   - Suggest organic alternatives when appropriate
   - Include cost-effective options for small-scale farmers

6. MONITORING PROTOCOLS:
   - What symptoms to watch for
   - How often to inspect crops
   - When to seek additional professional help
   - Record-keeping recommendations

FOR TEXT-BASED QUESTIONS:
Provide comprehensive, practical advice on:
- Seasonal farming calendars and planning
- Seed selection and planting techniques
- Fertilization schedules and soil testing
- Irrigation system design and water conservation
- Integrated pest management strategies
- Post-harvest processing and storage
- Market preparation and quality standards
- Farm equipment selection and maintenance
- Weather-related farming adjustments
- Sustainable and regenerative practices

COMMUNICATION STYLE:
- Use clear, farmer-friendly language while maintaining technical accuracy
- Be encouraging and supportive - farming challenges are normal and solvable
- Provide step-by-step actionable instructions
- Include relevant timing and seasonal considerations
- Mention local extension services when appropriate
- Balance immediate solutions with long-term farm sustainability
- Use bullet points for clarity but avoid excessive formatting
- Include cost considerations and return on investment when relevant

Always remember: Every farm and situation is unique. Encourage farmers to observe their specific conditions and adapt recommendations accordingly. When in doubt, suggest consulting local agricultural extension services or certified crop advisors for region-specific guidance."

/-- The fallback reply returned when the model's payload lacks a first
candidate text part. -/
def fallbackReply : String := "Sorry, I couldn\x27t generate a response."

/-- The complete observable outcome of one proxy invocation: the HTTP
response, whether the model endpoint was called, the `contents` payload
sent to it (when it was), the `contextMessages` slice the handler
derived (when it got that far) and which branch was taken. -/
structure ProxyResult where
  response : HttpResponse
  modelCalled : Bool
  modelPayload : Option (List GMessage)
  usedContext : Option (List ReqMessage)
  imagePath : Bool
deriving DecidableEq, Repr

/-- The tail of the handler after payload assembly: issue the model
call and translate its outcome into an HTTP response (non-success
status passed through with `{error, details}`; success extracts the
candidate text or a fixed fallback; a rejected fetch falls to the outer
catch, a 500). -/
def callModel (payload : List GMessage) (model : ModelOutcome)
    (ctx : List ReqMessage) (img : Bool) : ProxyResult :=
  match model with
  | .networkError msg =>
      ⟨⟨500, .errorDetails "Internal server error" msg⟩, true, some payload, some ctx, img⟩
  | .reply st errBody cand =>
      if statusOk st then
        ⟨⟨200, .success (cand.getD fallbackReply)⟩, true, some payload, some ctx, img⟩
      else
        ⟨⟨st, .errorDetails "Failed to get response from Gemini" errBody⟩,
          true, some payload, some ctx, img⟩

/-- A `ReqMessage` with every field absent, the value JavaScript
indexing yields out of range. -/
def emptyReqMessage : ReqMessage := ⟨none, none, none⟩

/-- The text-path history: every context message whose `content` is
truthy and whose trimmed content is truthy, mapped role-for-role
(`user` stays `user`, anything else becomes `model`). -/
def textHistory (ctx : List ReqMessage) : List GMessage :=
  ctx.filterMap fun msg =>
    match msg.content with
    | some c =>
        if c ≠ "" ∧ jsTrim c ≠ "" then
          some ⟨if msg.role = some "user" then "user" else "model", [.textPart (some c)]⟩
        else none
    | none => none

/-- The `if (hasImage)` block: a single-turn multimodal payload built
from the last context message (its text, and its image reference both
fetched and used for the media subtype); `ctx` only feeds the recorded
`contextMessages`. A rejected or non-success image fetch is caught and
answered with a 400 before any model call. -/
def imageBranch (imageMessage : ReqMessage) (ctx : List ReqMessage)
    (ifetch : ImageFetch) (model : ModelOutcome) : ProxyResult :=
  match ifetch with
  | .networkError msg =>
      ⟨⟨400, .errorDetails "Failed to process image" msg⟩,
        false, none, some ctx, true⟩
  | .httpReply st bytes =>
      if statusOk st then
        callModel
          [⟨"user", [.textPart (some systemPrompt),
                     .textPart imageMessage.content,
                     .inlineData (fullMimeType (imageMessage.imageUrl.getD ""))
                       (btoa bytes)]⟩]
          model ctx true
      else
        ⟨⟨400, .errorDetails "Failed to process image"
            ("Failed to fetch image: " ++ toString st)⟩,
          false, none, some ctx, true⟩

/-- The `else` block: system instructions as an initial user turn
followed by the filtered, role-mapped conversation history. -/
def textBranch (ctx : List ReqMessage) (model : ModelOutcome) : ProxyResult :=
  callModel (⟨"user", [.textPart (some systemPrompt)]⟩ :: textHistory ctx) model ctx false

/-- The handler body after validation and the API-key check: derive the
last message and the last-5 context slice, branch on whether the last
message carries a (truthy) image reference. -/
def routeRequest (messages : List ReqMessage)
    (ifetch : ImageFetch) (model : ModelOutcome) : ProxyResult :=
  if truthyStr ((messages.getLast?.getD emptyReqMessage).imageUrl) then
    imageBranch ((sliceLast 5 messages).getLast?.getD emptyReqMessage)
      (sliceLast 5 messages) ifetch model
  else
    textBranch (sliceLast 5 messages) model

/-- The Deno request handler of `chat-with-gemini/index.ts`, as a pure
function of the parsed `messages` array, the `GEMINI_API_KEY`
environment value, and the outcomes of its two outbound fetches. -/
def handleRequest (messages : List ReqMessage) (apiKey : Option String)
    (ifetch : ImageFetch) (model : ModelOutcome) : ProxyResult :=
  if messages.isEmpty then
    ⟨⟨400, .errorOnly "Messages array is required and cannot be empty"⟩,
      false, none, none, false⟩
  else
    match apiKey with
    | none =>
        ⟨⟨500, .errorOnly "Gemini API key not configured in environment"⟩,
          false, none, none, false⟩
    | some _ => routeRequest messages ifetch model

/-- Written from the spec's words (§4.2 text path, as amended): fixed
system instructions as an initial user turn, followed by every window
turn whose text is non-blank after trimming, in order, role `user`
mapped to `user` and role `assistant` mapped to `model`. -/
def specTextPayload (window : List ReqMessage) : List GMessage :=
  ⟨"user", [.textPart (some systemPrompt)]⟩ ::
    (window.filter fun m => jsTrim (m.content.getD "") ≠ "").map
      (fun m => ⟨if m.role = some "assistant" then "model" else "user",
                 [.textPart m.content]⟩)

/-! ## Conversation controller (`src/unnamed/part_000`, ChatInterface) -/

/-- A persisted message row (a Turn): id, role, text content and
optional image URL. Chronology is the list order (rows are selected
ordered by `created_at` ascending). -/
structure Turn where
  id : String
  role : String
  content : String
  imageUrl : Option String
deriving DecidableEq, Repr

/-- The outcome of the controller's `fetch` of the proxy: the promise
rejects, or resolves with `ok` and the parsed `response` field. -/
inductive ProxyOutcome where
  | networkError (msg : String)
  | reply (ok : Bool) (responseText : String)
deriving DecidableEq, Repr

/-- The environment of one `handleSend` run: the outcomes of its
external calls, in pipeline order. `Except.ok` carries the blob store's
public URL, resp. the id the data store assigns to an inserted row. -/
structure SendEnv where
  uploadResult : Except String String
  userInsertResult : Except String String
  proxyResult : ProxyOutcome
  assistantInsertResult : Except String String
deriving Repr

/-- The observable outcome of one `handleSend` run: the rows durably
inserted into the `messages` table during the run (in insertion order),
the final local message list, the `last5Messages` context window sent
to the proxy (when the run got that far) and whether the whole pipeline
succeeded. -/
structure SendResult where
  persisted : List Turn
  localMsgs : List Turn
  window : Option (List Turn)
  success : Bool
deriving DecidableEq, Repr

/-- The placeholder text persisted for an image-only send
(`input || 'Please analyze this image'`). -/
def placeholderText : String := "Please analyze this image"

/-- `handleSend` of the ChatInterface in `src/unnamed/part_000`
(lines 518–629), as a pure function of the prior local message list,
the compose input, the attached image (by name) and the environment.
Every `throw` lands in the catch block, which only alerts: no persisted
row is removed and the optimistic local appends stay. The title update
and the final chat-timestamp touch do not check their errors and
cannot throw. -/
def handleSend (prior : List Turn) (input : String) (image : Option String)
    (env : SendEnv) : SendResult :=
  if jsTrim input = "" ∧ image = none then
    ⟨[], prior, none, false⟩
  else
    let uploaded : Except String (Option String) :=
      match image with
      | none => .ok none
      | some _ =>
          match env.uploadResult with
          | .ok url => .ok (some url)
          | .error e => .error e
    match uploaded with
    | .error _ => ⟨[], prior, none, false⟩
    | .ok iurl =>
        let content := if input = "" then placeholderText else input
        match env.userInsertResult with
        | .error _ => ⟨[], prior, none, false⟩
        | .ok uid =>
            let userTurn : Turn := ⟨uid, "user", content, iurl⟩
            let local1 := prior ++ [userTurn]
            let window := sliceLast 5 (prior ++ [userTurn])
            match env.proxyResult with
            | .networkError _ => ⟨[userTurn], local1, some window, false⟩
            | .reply ok text =>
                if ok then
                  match env.assistantInsertResult with
                  | .error _ => ⟨[userTurn], local1, some window, false⟩
                  | .ok aid =>
                      let assistantTurn : Turn := ⟨aid, "assistant", text, none⟩
                      ⟨[userTurn, assistantTurn], local1 ++ [assistantTurn],
                        some window, true⟩
                else ⟨[userTurn], local1, some window, false⟩

/-- The realtime subscription's INSERT handler (`src/unnamed/part_000`
lines 477–483): append the delivered row unless a row with its id is
already in the local list. -/
def applyInsert (l : List Turn) (m : Turn) : List Turn :=
  match l.find? (fun msg => msg.id == m.id) with
  | some _ => l
  | none => l ++ [m]

end AgroTech
namespace AgroTech

/-! ## Helper lemmas -/

theorem sliceLast_length (n : Nat) (l : List α) :
    (sliceLast n l).length = min n l.length := by
  simp [sliceLast]
  omega

theorem sliceLast_suffix (n : Nat) (l : List α) : sliceLast n l <:+ l :=
  ⟨l.take (l.length - n), l.take_append_drop (l.length - n)⟩

theorem sliceLast_getLast? (n : Nat) (l : List α) (hl : l ≠ []) (hn : 0 < n) :
    (sliceLast n l).getLast? = l.getLast? := by
  obtain ⟨t, ht⟩ := sliceLast_suffix n l
  have hlen : 0 < l.length := List.length_pos.mpr hl
  have hne : sliceLast n l ≠ [] := by
    have h := sliceLast_length n l
    intro hcon
    rw [hcon] at h
    simp at h
    omega
  conv_rhs => rw [← ht]
  rw [List.getLast?_append_of_ne_nil t hne]

theorem callModel_components (p : List GMessage) (m : ModelOutcome)
    (c : List ReqMessage) (i : Bool) :
    (callModel p m c i).modelCalled = true ∧
    (callModel p m c i).modelPayload = some p ∧
    (callModel p m c i).usedContext = some c ∧
    (callModel p m c i).imagePath = i := by
  cases m with
  | networkError msg => simp [callModel]
  | reply st e cand => simp only [callModel]; split <;> simp

theorem callModel_response_ctx_independent (p : List GMessage) (m : ModelOutcome)
    (c₁ c₂ : List ReqMessage) (i₁ i₂ : Bool) :
    (callModel p m c₁ i₁).response = (callModel p m c₂ i₂).response := by
  cases m with
  | networkError msg => rfl
  | reply st e cand => simp only [callModel]; split <;> rfl

theorem callModel_body_not_errorOnly (p : List GMessage) (mo : ModelOutcome)
    (c : List ReqMessage) (i : Bool) (s : String) :
    (callModel p mo c i).response.body ≠ RespBody.errorOnly s := by
  cases mo with
  | networkError m => simp [callModel]
  | reply st e cand => cases h : statusOk st <;> simp [callModel, h]

theorem handleRequest_route (messages : List ReqMessage) (key : String)
    (ifetch : ImageFetch) (model : ModelOutcome) (h : messages ≠ []) :
    handleRequest messages (some key) ifetch model = routeRequest messages ifetch model := by
  unfold handleRequest
  rw [if_neg]
  simp [List.isEmpty_iff, h]

theorem imageBranch_imagePath (im : ReqMessage) (c : List ReqMessage)
    (f : ImageFetch) (mo : ModelOutcome) : (imageBranch im c f mo).imagePath = true := by
  cases f with
  | networkError m => rfl
  | httpReply st bytes =>
      cases h : statusOk st with
      | false => simp [imageBranch, h]
      | true =>
          simp only [imageBranch, h, if_true]
          exact (callModel_components _ _ _ _).2.2.2

theorem imageBranch_usedContext (im : ReqMessage) (c : List ReqMessage)
    (f : ImageFetch) (mo : ModelOutcome) :
    (imageBranch im c f mo).usedContext = some c := by
  cases f with
  | networkError m => rfl
  | httpReply st bytes =>
      cases h : statusOk st with
      | false => simp [imageBranch, h]
      | true =>
          simp only [imageBranch, h, if_true]
          exact (callModel_components _ _ _ _).2.2.1

theorem imageBranch_body_not_errorOnly (im : ReqMessage) (c : List ReqMessage)
    (f : ImageFetch) (mo : ModelOutcome) (s : String) :
    (imageBranch im c f mo).response.body ≠ RespBody.errorOnly s := by
  cases f with
  | networkError m => simp [imageBranch]
  | httpReply st bytes =>
      cases h : statusOk st with
      | false => simp [imageBranch, h]
      | true =>
          simp only [imageBranch, h, if_true]
          exact callModel_body_not_errorOnly _ _ _ _ s

theorem imageBranch_ctx_independent (im : ReqMessage) (c₁ c₂ : List ReqMessage)
    (f : ImageFetch) (mo : ModelOutcome) :
    (imageBranch im c₁ f mo).modelPayload = (imageBranch im c₂ f mo).modelPayload ∧
    (imageBranch im c₁ f mo).response = (imageBranch im c₂ f mo).response := by
  cases f with
  | networkError m => exact ⟨rfl, rfl⟩
  | httpReply st bytes =>
      cases h : statusOk st with
      | false => simp [imageBranch, h]
      | true =>
          simp only [imageBranch, h, if_true]
          constructor
          · rw [(callModel_components _ _ _ _).2.1, (callModel_components _ _ _ _).2.1]
          · exact callModel_response_ctx_independent _ _ _ _ _ _

theorem textHistory_eq_spec (ctx : List ReqMessage)
    (h : ∀ m ∈ ctx, m.role = some "user" ∨ m.role = some "assistant") :
    textHistory ctx =
      (ctx.filter fun m => jsTrim (m.content.getD "") ≠ "").map
        (fun m => ⟨if m.role = some "assistant" then "model" else "user",
                   [.textPart m.content]⟩) := by
  induction ctx with
  | nil => rfl
  | cons m rest ih =>
      have hm := h m (List.mem_cons_self m rest)
      have ihr := ih (fun x hx => h x (List.mem_cons_of_mem m hx))
      have htrim : jsTrim "" = "" := by decide
      simp only [textHistory, List.filterMap_cons] at ihr ⊢
      cases hc : m.content with
      | none =>
          simp [List.filter_cons, hc, htrim, ihr]
      | some c =>
          by_cases hblank : jsTrim c = ""
          · have hcond : ¬ (c ≠ "" ∧ jsTrim c ≠ "") := fun hx => hx.2 hblank
            simp [List.filter_cons, hc, hblank, hcond, ihr]
          · have hcne : c ≠ "" := fun hceq => hblank (by rw [hceq]; exact htrim)
            have hcond : c ≠ "" ∧ jsTrim c ≠ "" := ⟨hcne, hblank⟩
            simp [List.filter_cons, hc, hblank, hcond, ihr]
            rcases hm with hu | ha
            · rw [hu]; simp
            · rw [ha]; simp

/-! ## Claim theorems -/

/-- C1 counterexample: with a valid one-message window that reaches the
model call, an upstream 503 makes the proxy respond with status 503,
not 500 as the claim states. -/
theorem c1_counterexample :
    (handleRequest [⟨some "user", some "hello", none⟩] (some "k") (.httpReply 200 [])
        (.reply 503 "upstream raw body" none)).modelCalled = true ∧
    (handleRequest [⟨some "user", some "hello", none⟩] (some "k") (.httpReply 200 [])
        (.reply 503 "upstream raw body" none)).response.status = 503 ∧
    (503 : Nat) ≠ 500 :=
  ⟨rfl, rfl, by decide⟩

/-- C1 (amended): for every request that reaches the external model
call, a non-success upstream status makes the proxy respond with that
same upstream status and a body carrying an error string and the raw
upstream error body as details. -/
theorem c1_upstream_passthrough (messages : List ReqMessage) (key : String)
    (ifetch : ImageFetch) (st : Nat) (errBody : String) (cand : Option String)
    (hcalled : (handleRequest messages (some key) ifetch
        (.reply st errBody cand)).modelCalled = true)
    (hst : statusOk st = false) :
    (handleRequest messages (some key) ifetch (.reply st errBody cand)).response =
      ⟨st, .errorDetails "Failed to get response from Gemini" errBody⟩ := by
  by_cases hm : messages = []
  · rw [hm] at hcalled
    simp [handleRequest] at hcalled
  · rw [handleRequest_route messages key ifetch _ hm] at hcalled ⊢
    by_cases himg : truthyStr ((messages.getLast?.getD emptyReqMessage).imageUrl) = true
    · simp only [routeRequest, himg, if_true] at hcalled ⊢
      cases ifetch with
      | networkError m => simp [imageBranch] at hcalled
      | httpReply s bytes =>
          cases hok : statusOk s with
          | false => simp [imageBranch, hok] at hcalled
          | true =>
              simp only [imageBranch, hok, if_true] at hcalled ⊢
              simp [callModel, hst]
    · simp only [routeRequest, himg, if_false] at hcalled ⊢
      simp [textBranch, callModel, hst]

/-- C1 witness: the amended theorem applied to the concrete upstream-503
scenario. -/
theorem c1_witness :
    (handleRequest [⟨some "user", some "hello", none⟩] (some "k") (.httpReply 200 [])
        (.reply 503 "raw" none)).response =
      ⟨503, .errorDetails "Failed to get response from Gemini" "raw"⟩ :=
  c1_upstream_passthrough [⟨some "user", some "hello", none⟩] "k" (.httpReply 200 [])
    503 "raw" none rfl (by decide)

/-- C2 counterexample: a request whose single message is missing both
its role and its text field is not rejected — the proxy calls the model
and answers 200. -/
theorem c2_counterexample :
    (handleRequest [⟨none, none, none⟩] (some "k") (.httpReply 200 [])
        (.reply 200 "" (some "hi"))).modelCalled = true ∧
    (handleRequest [⟨none, none, none⟩] (some "k") (.httpReply 200 [])
        (.reply 200 "" (some "hi"))).response.status = 200 :=
  ⟨rfl, rfl⟩

/-- C2 (amended): an empty messages list is rejected with HTTP 400 and
an error body, and no call is made to the external model; entries
missing role or text fields are not validated. -/
theorem c2_empty_rejected (apiKey : Option String) (ifetch : ImageFetch)
    (model : ModelOutcome) :
    handleRequest [] apiKey ifetch model =
      ⟨⟨400, .errorOnly "Messages array is required and cannot be empty"⟩,
        false, none, none, false⟩ :=
  rfl

/-- C10: a non-empty messages list longer than 5 is not rejected (the
handler never produces an error-only body past validation when a key is
configured); it is truncated to its last 5 entries, which form a
length-5 suffix of the list, and the prompt is assembled from that
slice. -/
theorem c10_truncation (messages : List ReqMessage) (key : String)
    (ifetch : ImageFetch) (model : ModelOutcome) (h : 5 < messages.length) :
    (∀ s, (handleRequest messages (some key) ifetch model).response.body ≠
      RespBody.errorOnly s) ∧
    (handleRequest messages (some key) ifetch model).usedContext =
      some (sliceLast 5 messages) ∧
    (sliceLast 5 messages).length = 5 ∧
    sliceLast 5 messages <:+ messages := by
  have hne : messages ≠ [] := by
    intro hc
    rw [hc] at h
    simp at h
  rw [handleRequest_route messages key ifetch model hne]
  refine ⟨?_, ?_, ?_, sliceLast_suffix 5 messages⟩
  · intro s
    by_cases himg : truthyStr ((messages.getLast?.getD emptyReqMessage).imageUrl) = true
    · simp only [routeRequest, himg, if_true]
      exact imageBranch_body_not_errorOnly _ _ _ _ s
    · simp only [routeRequest, himg, if_false]
      exact callModel_body_not_errorOnly _ _ _ _ s
  · by_cases himg : truthyStr ((messages.getLast?.getD emptyReqMessage).imageUrl) = true
    · simp only [routeRequest, himg, if_true]
      exact imageBranch_usedContext _ _ _ _
    · simp only [routeRequest, himg, if_false]
      exact (callModel_components _ _ _ _).2.2.1
  · rw [sliceLast_length]
    omega

/-- C10 witness: a 6-message list is truncated to its last 5 entries,
not rejected. -/
theorem c10_witness :
    (handleRequest
        ([⟨some "user", some "a", none⟩, ⟨some "assistant", some "b", none⟩,
          ⟨some "user", some "c", none⟩, ⟨some "assistant", some "d", none⟩,
          ⟨some "user", some "e", none⟩, ⟨some "user", some "f", none⟩] :
          List ReqMessage)
        (some "k") (.httpReply 200 []) (.reply 200 "" (some "ok"))).usedContext =
      some (sliceLast 5
        ([⟨some "user", some "a", none⟩, ⟨some "assistant", some "b", none⟩,
          ⟨some "user", some "c", none⟩, ⟨some "assistant", some "d", none⟩,
          ⟨some "user", some "e", none⟩, ⟨some "user", some "f", none⟩] :
          List ReqMessage)) :=
  (c10_truncation _ "k" (.httpReply 200 []) (.reply 200 "" (some "ok")) (by decide)).2.1

theorem textBranch_imagePath (c : List ReqMessage) (mo : ModelOutcome) :
    (textBranch c mo).imagePath = false := by
  unfold textBranch
  exact (callModel_components _ _ _ _).2.2.2

theorem routeRequest_imagePath (messages : List ReqMessage)
    (f : ImageFetch) (mo : ModelOutcome) :
    (routeRequest messages f mo).imagePath =
      truthyStr ((messages.getLast?.getD emptyReqMessage).imageUrl) := by
  cases h : truthyStr ((messages.getLast?.getD emptyReqMessage).imageUrl) <;>
    simp [routeRequest, h, textBranch_imagePath, imageBranch_imagePath]

theorem sliceLast5_getLastD (l : List ReqMessage) (h : l ≠ []) :
    (sliceLast 5 l).getLast?.getD emptyReqMessage = l.getLast?.getD emptyReqMessage := by
  rw [sliceLast_getLast? 5 l h (by omega)]

/-- C6 counterexample: a window whose single turn has the non-empty
text `" "` is dropped from the text-path payload (the source filters on
trimmed text), so the payload is the system turn alone, not the
system turn followed by the window turn as the claim states. -/
theorem c6_counterexample :
    ((" " : String) ≠ "") ∧
    (handleRequest [⟨some "user", some " ", none⟩] (some "k") (.httpReply 200 [])
        (.reply 200 "" (some "hi"))).modelPayload =
      some [⟨"user", [.textPart (some systemPrompt)]⟩] :=
  ⟨by decide, rfl⟩

/-- C6 (amended): when the last turn carries no image reference, the
payload is the fixed system instructions as an initial user turn
followed by every window turn whose text is non-blank after trimming,
in order, with `user` mapped to `user` and `assistant` mapped to
`model` (`specTextPayload`, written from the amended spec text). -/
theorem c6_text_path_payload (messages : List ReqMessage) (key : String)
    (ifetch : ImageFetch) (model : ModelOutcome)
    (hne : messages ≠ [])
    (hroles : ∀ m ∈ messages, m.role = some "user" ∨ m.role = some "assistant")
    (hnoimg : truthyStr ((messages.getLast?.getD emptyReqMessage).imageUrl) = false) :
    (handleRequest messages (some key) ifetch model).modelPayload =
      some (specTextPayload (sliceLast 5 messages)) := by
  rw [handleRequest_route messages key ifetch model hne]
  have hsub : ∀ m ∈ sliceLast 5 messages,
      m.role = some "user" ∨ m.role = some "assistant" :=
    fun m hm => hroles m ((sliceLast_suffix 5 messages).subset hm)
  unfold routeRequest
  rw [if_neg (show ¬ truthyStr ((messages.getLast?.getD emptyReqMessage).imageUrl) = true
    by simp [hnoimg])]
  unfold textBranch specTextPayload
  rw [(callModel_components _ _ _ _).2.1, textHistory_eq_spec _ hsub]

/-- C6 witness: the spec scenario — window `[{user,"hello"}]` yields
the payload `[{user, systemPrompt}, {user, "hello"}]`, and on an
upstream 200 with candidate text "Hi there" the proxy answers
`{response: "Hi there"}`. -/
theorem c6_witness :
    (handleRequest [⟨some "user", some "hello", none⟩] (some "k") (.httpReply 200 [])
        (.reply 200 "" (some "Hi there"))).modelPayload =
      some (specTextPayload (sliceLast 5
        ([⟨some "user", some "hello", none⟩] : List ReqMessage))) ∧
    specTextPayload (sliceLast 5 ([⟨some "user", some "hello", none⟩] : List ReqMessage)) =
      [⟨"user", [.textPart (some systemPrompt)]⟩,
       ⟨"user", [.textPart (some "hello")]⟩] ∧
    (handleRequest [⟨some "user", some "hello", none⟩] (some "k") (.httpReply 200 [])
        (.reply 200 "" (some "Hi there"))).response = ⟨200, .success "Hi there"⟩ :=
  ⟨c6_text_path_payload [⟨some "user", some "hello", none⟩] "k" (.httpReply 200 [])
      (.reply 200 "" (some "Hi there")) (by decide) (by decide) rfl,
    rfl, rfl⟩

/-- C7 counterexample: two image-path requests with identical last-turn
text and identical fetched bytes but different image-reference
extensions produce different payloads (the media subtype is derived
from the reference), so the payload does not depend on the last turn
text and the fetched bytes alone. -/
theorem c7_counterexample :
    (handleRequest [⟨some "user", some "x", some "a.png"⟩] (some "k")
        (.httpReply 200 [1, 2]) (.reply 200 "" (some "y"))).imagePath = true ∧
    (handleRequest [⟨some "user", some "x", some "a.gif"⟩] (some "k")
        (.httpReply 200 [1, 2]) (.reply 200 "" (some "y"))).imagePath = true ∧
    (handleRequest [⟨some "user", some "x", some "a.png"⟩] (some "k")
        (.httpReply 200 [1, 2]) (.reply 200 "" (some "y"))).modelPayload ≠
      (handleRequest [⟨some "user", some "x", some "a.gif"⟩] (some "k")
        (.httpReply 200 [1, 2]) (.reply 200 "" (some "y"))).modelPayload := by
  refine ⟨rfl, rfl, ?_⟩
  intro h
  have hp : (handleRequest [⟨some "user", some "x", some "a.png"⟩] (some "k")
      (.httpReply 200 [1, 2]) (.reply 200 "" (some "y"))).modelPayload =
      some [⟨"user", [.textPart (some systemPrompt), .textPart (some "x"),
        .inlineData "image/png" (btoa [1, 2])]⟩] := rfl
  have hg : (handleRequest [⟨some "user", some "x", some "a.gif"⟩] (some "k")
      (.httpReply 200 [1, 2]) (.reply 200 "" (some "y"))).modelPayload =
      some [⟨"user", [.textPart (some systemPrompt), .textPart (some "x"),
        .inlineData "image/gif" (btoa [1, 2])]⟩] := rfl
  rw [hp, hg] at h
  simp at h

/-- C7 (amended): the branch taken is determined solely by whether the
last turn carries a truthy image reference, and on the image path the
payload and the HTTP response depend only on the last turn (its text
and its image reference) and the image-fetch outcome — all turns before
the last are ignored. -/
theorem c7_image_path_last_only (m₁ m₂ : List ReqMessage) (key : String)
    (ifetch : ImageFetch) (model : ModelOutcome)
    (h₁ : m₁ ≠ []) (h₂ : m₂ ≠ [])
    (hlast : m₁.getLast?.getD emptyReqMessage = m₂.getLast?.getD emptyReqMessage) :
    (handleRequest m₁ (some key) ifetch model).imagePath =
      truthyStr ((m₁.getLast?.getD emptyReqMessage).imageUrl) ∧
    (handleRequest m₂ (some key) ifetch model).imagePath =
      (handleRequest m₁ (some key) ifetch model).imagePath ∧
    ((handleRequest m₁ (some key) ifetch model).imagePath = true →
      (handleRequest m₁ (some key) ifetch model).modelPayload =
        (handleRequest m₂ (some key) ifetch model).modelPayload ∧
      (handleRequest m₁ (some key) ifetch model).response =
        (handleRequest m₂ (some key) ifetch model).response) := by
  rw [handleRequest_route m₁ key ifetch model h₁,
    handleRequest_route m₂ key ifetch model h₂]
  refine ⟨routeRequest_imagePath m₁ ifetch model, ?_, ?_⟩
  · rw [routeRequest_imagePath, routeRequest_imagePath, hlast]
  · intro hip
    rw [routeRequest_imagePath m₁ ifetch model] at hip
    have hip₂ : truthyStr ((m₂.getLast?.getD emptyReqMessage).imageUrl) = true := by
      rw [← hlast]
      exact hip
    simp only [routeRequest, hip, hip₂, if_true]
    rw [sliceLast5_getLastD m₁ h₁, sliceLast5_getLastD m₂ h₂, hlast]
    exact imageBranch_ctx_independent _ _ _ _ _

/-- C7 witness: a two-turn window and a one-turn window sharing the
same image-carrying last turn get the same payload. -/
theorem c7_witness :
    (handleRequest [⟨some "user", some "earlier", none⟩,
        ⟨some "user", some "x", some "a.png"⟩] (some "k")
        (.httpReply 200 [7]) (.reply 200 "" (some "y"))).modelPayload =
      (handleRequest [⟨some "user", some "x", some "a.png"⟩] (some "k")
        (.httpReply 200 [7]) (.reply 200 "" (some "y"))).modelPayload :=
  ((c7_image_path_last_only
      [⟨some "user", some "earlier", none⟩, ⟨some "user", some "x", some "a.png"⟩]
      [⟨some "user", some "x", some "a.png"⟩] "k" (.httpReply 200 [7])
      (.reply 200 "" (some "y")) (by decide) (by decide) rfl).2.2 rfl).1

theorem window_facts (prior : List Turn) (u : Turn) :
    sliceLast 5 (prior ++ [u]) = (prior ++ [u]).drop (prior.length + 1 - 5) ∧
    (sliceLast 5 (prior ++ [u])).length = min 5 (prior.length + 1) ∧
    sliceLast 5 (prior ++ [u]) <:+ prior ++ [u] ∧
    (sliceLast 5 (prior ++ [u])).getLast? = some u := by
  refine ⟨by simp [sliceLast], ?_, sliceLast_suffix 5 _, ?_⟩
  · rw [sliceLast_length]
    simp
  · rw [sliceLast_getLast? 5 _ (by simp) (by omega)]
    simp

theorem handleSend_cases (prior : List Turn) (input : String) (image : Option String)
    (env : SendEnv) :
    handleSend prior input image env = ⟨[], prior, none, false⟩ ∨
    (∃ u : Turn, u.role = "user" ∧
      u.content = (if input = "" then placeholderText else input) ∧
      (handleSend prior input image env =
          ⟨[u], prior ++ [u], some (sliceLast 5 (prior ++ [u])), false⟩ ∨
        ∃ a : Turn, a.role = "assistant" ∧
          handleSend prior input image env =
            ⟨[u, a], (prior ++ [u]) ++ [a], some (sliceLast 5 (prior ++ [u])), true⟩)) := by
  simp only [handleSend]
  split
  · exact Or.inl rfl
  · split
    · exact Or.inl rfl
    · split
      · exact Or.inl rfl
      · split
        · exact Or.inr ⟨_, rfl, rfl, Or.inl rfl⟩
        · split
          · split
            · exact Or.inr ⟨_, rfl, rfl, Or.inl rfl⟩
            · exact Or.inr ⟨_, rfl, rfl, Or.inr ⟨_, rfl, rfl⟩⟩
          · exact Or.inr ⟨_, rfl, rfl, Or.inl rfl⟩

/-- C3: whenever `handleSend` builds a context window, that window is
exactly the last-5 tail of the full ordered turn sequence including the
just-persisted user turn: its length is `min 5 n` for `n` total turns,
it is a suffix of the full sequence (chronological order preserved),
and it ends with the just-persisted turn. -/
theorem c3_context_window (prior : List Turn) (input : String) (image : Option String)
    (env : SendEnv) (w : List Turn)
    (hw : (handleSend prior input image env).window = some w) :
    ∃ u : Turn, u.role = "user" ∧
      w = (prior ++ [u]).drop (prior.length + 1 - 5) ∧
      w.length = min 5 (prior.length + 1) ∧
      w <:+ prior ++ [u] ∧
      w.getLast? = some u := by
  rcases handleSend_cases prior input image env with h | ⟨u, hrole, hcont, h | ⟨a, harole, h⟩⟩
  · rw [h] at hw
    simp at hw
  · rw [h] at hw
    simp only [Option.some.injEq] at hw
    subst hw
    exact ⟨u, hrole, (window_facts prior u).1, (window_facts prior u).2.1,
      (window_facts prior u).2.2.1, (window_facts prior u).2.2.2⟩
  · rw [h] at hw
    simp only [Option.some.injEq] at hw
    subst hw
    exact ⟨u, hrole, (window_facts prior u).1, (window_facts prior u).2.1,
      (window_facts prior u).2.2.1, (window_facts prior u).2.2.2⟩

/-- C3 witness: six prior turns plus the new user turn give the window
of the last five, ending with the new turn. -/
theorem c3_witness :
    ∃ u : Turn, u.role = "user" ∧
      ([⟨"3", "user", "c", none⟩, ⟨"4", "assistant", "d", none⟩,
        ⟨"5", "user", "e", none⟩, ⟨"6", "assistant", "f", none⟩,
        ⟨"7", "user", "hi", none⟩] : List Turn) =
        (([⟨"1", "user", "a", none⟩, ⟨"2", "assistant", "b", none⟩,
           ⟨"3", "user", "c", none⟩, ⟨"4", "assistant", "d", none⟩,
           ⟨"5", "user", "e", none⟩, ⟨"6", "assistant", "f", none⟩] : List Turn) ++
          [u]).drop
          (([⟨"1", "user", "a", none⟩, ⟨"2", "assistant", "b", none⟩,
             ⟨"3", "user", "c", none⟩, ⟨"4", "assistant", "d", none⟩,
             ⟨"5", "user", "e", none⟩,
             ⟨"6", "assistant", "f", none⟩] : List Turn).length + 1 - 5) ∧
      ([⟨"3", "user", "c", none⟩, ⟨"4", "assistant", "d", none⟩,
        ⟨"5", "user", "e", none⟩, ⟨"6", "assistant", "f", none⟩,
        ⟨"7", "user", "hi", none⟩] : List Turn).length =
        min 5
          (([⟨"1", "user", "a", none⟩, ⟨"2", "assistant", "b", none⟩,
             ⟨"3", "user", "c", none⟩, ⟨"4", "assistant", "d", none⟩,
             ⟨"5", "user", "e", none⟩,
             ⟨"6", "assistant", "f", none⟩] : List Turn).length + 1) ∧
      ([⟨"3", "user", "c", none⟩, ⟨"4", "assistant", "d", none⟩,
        ⟨"5", "user", "e", none⟩, ⟨"6", "assistant", "f", none⟩,
        ⟨"7", "user", "hi", none⟩] : List Turn) <:+
        ([⟨"1", "user", "a", none⟩, ⟨"2", "assistant", "b", none⟩,
          ⟨"3", "user", "c", none⟩, ⟨"4", "assistant", "d", none⟩,
          ⟨"5", "user", "e", none⟩, ⟨"6", "assistant", "f", none⟩] : List Turn) ++ [u] ∧
      ([⟨"3", "user", "c", none⟩, ⟨"4", "assistant", "d", none⟩,
        ⟨"5", "user", "e", none⟩, ⟨"6", "assistant", "f", none⟩,
        ⟨"7", "user", "hi", none⟩] : List Turn).getLast? = some u :=
  c3_context_window
    [⟨"1", "user", "a", none⟩, ⟨"2", "assistant", "b", none⟩,
     ⟨"3", "user", "c", none⟩, ⟨"4", "assistant", "d", none⟩,
     ⟨"5", "user", "e", none⟩, ⟨"6", "assistant", "f", none⟩]
    "hi" none ⟨.ok "u0", .ok "7", .reply true "r", .ok "8"⟩
    [⟨"3", "user", "c", none⟩, ⟨"4", "assistant", "d", none⟩,
     ⟨"5", "user", "e", none⟩, ⟨"6", "assistant", "f", none⟩,
     ⟨"7", "user", "hi", none⟩] rfl

/-- C4: on an image-only send (empty text, image attached), any
persisted user turn has the fixed placeholder text. -/
theorem c4_image_only_placeholder (prior : List Turn) (img : String) (env : SendEnv)
    (t : Turn) (ht : t ∈ (handleSend prior "" (some img) env).persisted)
    (hrole : t.role = "user") :
    t.content = "Please analyze this image" := by
  rcases handleSend_cases prior "" (some img) env with h | ⟨u, _, hcont, h | ⟨a, harole, h⟩⟩
  · rw [h] at ht
    simp at ht
  · rw [h] at ht
    simp only [List.mem_singleton] at ht
    subst ht
    simpa [placeholderText] using hcont
  · rw [h] at ht
    simp only [List.mem_cons, List.mem_singleton, List.not_mem_nil, or_false] at ht
    rcases ht with rfl | rfl
    · simpa [placeholderText] using hcont
    · rw [harole] at hrole
      simp at hrole

/-- C4 witness: an image-only send persists the placeholder user turn. -/
theorem c4_witness :
    (⟨"u1", "user", "Please analyze this image", some "url"⟩ : Turn) ∈
      (handleSend [] "" (some "i.png")
        ⟨.ok "url", .ok "u1", .reply true "r", .ok "a1"⟩).persisted ∧
    (⟨"u1", "user", "Please analyze this image", some "url"⟩ : Turn).content =
      "Please analyze this image" :=
  ⟨by decide,
    c4_image_only_placeholder [] "i.png" ⟨.ok "url", .ok "u1", .reply true "r", .ok "a1"⟩
      ⟨"u1", "user", "Please analyze this image", some "url"⟩ (by decide) rfl⟩

/-- C5: when an image is attached and the blob-store upload fails, the
send aborts with no writes: nothing is persisted, the local list is
unchanged, no context window is built, and the send fails. -/
theorem c5_upload_failure_aborts (prior : List Turn) (input : String) (img : String)
    (e : String) (env : SendEnv) (h : env.uploadResult = .error e) :
    handleSend prior input (some img) env = ⟨[], prior, none, false⟩ := by
  simp only [handleSend]
  rw [if_neg (by simp)]
  simp [h]

/-- C5 witness: a failing upload leaves zero new turns. -/
theorem c5_witness :
    handleSend [] "hi" (some "i.png")
        ⟨.error "boom", .ok "u1", .reply true "r", .ok "a1"⟩ =
      ⟨[], [], none, false⟩ :=
  c5_upload_failure_aborts [] "hi" "i.png" "boom"
    ⟨.error "boom", .ok "u1", .reply true "r", .ok "a1"⟩ rfl

/-- C8: applying a live-feed insert event for a turn id already present
leaves the local list unchanged; an insert for an absent id appends the
turn. -/
theorem c8_duplicate_insert_guard (l : List Turn) (m : Turn) :
    (m.id ∈ l.map Turn.id → applyInsert l m = l) ∧
    (m.id ∉ l.map Turn.id → applyInsert l m = l ++ [m]) := by
  constructor
  · intro h
    obtain ⟨x, hx, hid⟩ := List.mem_map.mp h
    unfold applyInsert
    have hsome : (l.find? fun msg => msg.id == m.id).isSome := by
      rw [List.find?_isSome]
      exact ⟨x, hx, by simp [hid]⟩
    obtain ⟨y, hy⟩ := Option.isSome_iff_exists.mp hsome
    rw [hy]
  · intro h
    unfold applyInsert
    have hnone : l.find? (fun msg => msg.id == m.id) = none := by
      rw [List.find?_eq_none]
      intro x hx
      simp only [beq_iff_eq]
      intro hc
      exact h (List.mem_map.mpr ⟨x, hx, hc⟩)
    rw [hnone]

/-- C8 witness: a duplicate-id insert is a no-op; a fresh-id insert
appends. -/
theorem c8_witness :
    applyInsert [⟨"a", "user", "x", none⟩] ⟨"a", "user", "x2", none⟩ =
      [⟨"a", "user", "x", none⟩] ∧
    applyInsert [⟨"a", "user", "x", none⟩] ⟨"b", "assistant", "y", none⟩ =
      [⟨"a", "user", "x", none⟩, ⟨"b", "assistant", "y", none⟩] :=
  ⟨(c8_duplicate_insert_guard [⟨"a", "user", "x", none⟩] ⟨"a", "user", "x2", none⟩).1
      (by decide),
    (c8_duplicate_insert_guard [⟨"a", "user", "x", none⟩] ⟨"b", "assistant", "y", none⟩).2
      (by decide)⟩

/-- C9: a send that persisted its user turn (a window was built) and
then failed keeps that user turn: it is exactly what was durably
inserted, and the local list is the prior list with it appended — no
rollback. -/
theorem c9_user_turn_kept (prior : List Turn) (input : String) (image : Option String)
    (env : SendEnv)
    (hw : (handleSend prior input image env).window ≠ none)
    (hfail : (handleSend prior input image env).success = false) :
    ∃ u : Turn, u.role = "user" ∧
      (handleSend prior input image env).persisted = [u] ∧
      (handleSend prior input image env).localMsgs = prior ++ [u] := by
  rcases handleSend_cases prior input image env with h | ⟨u, hrole, hcont, h | ⟨a, harole, h⟩⟩
  · rw [h] at hw
    simp at hw
  · rw [h]
    exact ⟨u, hrole, rfl, rfl⟩
  · rw [h] at hfail
    simp at hfail

/-- C9 witness: a send whose proxy call fails after the user turn was
persisted keeps the user turn durably and locally. -/
theorem c9_witness :
    (handleSend [] "hi" none ⟨.ok "url", .ok "u1", .reply false "", .ok "a1"⟩).window ≠
      none ∧
    (handleSend [] "hi" none ⟨.ok "url", .ok "u1", .reply false "", .ok "a1"⟩).success =
      false ∧
    ∃ u : Turn, u.role = "user" ∧
      (handleSend [] "hi" none
        ⟨.ok "url", .ok "u1", .reply false "", .ok "a1"⟩).persisted = [u] ∧
      (handleSend [] "hi" none
        ⟨.ok "url", .ok "u1", .reply false "", .ok "a1"⟩).localMsgs = [] ++ [u] :=
  ⟨by decide, rfl,
    c9_user_turn_kept [] "hi" none ⟨.ok "url", .ok "u1", .reply false "", .ok "a1"⟩
      (by decide) rfl⟩

end AgroTech
